import Mathlib

/-!
Verification of the Recovery Metrics Engine of the ROSPIN post-flood
recovery repository.  The Python sources
`src/data_processing/satellite_data_processor_v2.py` (index calculator,
time-series aggregator, regression-based recovery metrics) and
`src/data_processing/satellite_data_processor_v3.py` (per-pixel
event-time / survival estimator) are shallowly embedded below.

Modelling conventions:
* machine floats become exact rationals `ℚ`; decimal literals of the
  source (`0.6`, `0.9`) become the exact rationals `6/10`, `9/10`;
* a 2-D numpy array becomes a function `Pix → ℚ` (or `Pix → Option ℚ`
  when cells can be NaN), with `Pix = ℕ × ℕ` as (row, column);
* NaN values are `none : Option ℚ` — numpy's silent NaN propagation
  (e.g. `np.where(d == 0, np.nan, d)`) becomes explicit `Option`;
* a Python `raise` becomes `Except.error`, a dict whose keys can be
  absent becomes a structure with `Option` fields for those keys;
* flattened grids handed to reductions (`np.nanmean`) are `List`s.
-/

set_option linter.unnecessarySeqFocus false

/-- Pixel coordinates (row, column) of a 2-D grid. -/
abbrev Pix := ℕ × ℕ

/-- A 2-D grid of finite numeric values (a numpy float array without NaN). -/
abbrev Grid := Pix → ℚ

/-- Embedding of `SatelliteDataProcessor.calculate_ndvi` (v2, lines 99-116):
`denominator = nir + red`, zero denominators mapped to NaN (`none`),
otherwise `(nir - red) / (nir + red)`.  The source never raises: the
embedding is a total function. -/
def calculate_ndvi (red_band nir_band : Pix → ℚ) : Pix → Option ℚ := fun p =>
  let denominator := nir_band p + red_band p
  if denominator = 0 then none
  else some ((nir_band p - red_band p) / denominator)

/-- Ordinary-least-squares slope of `ys` against `xs`: the degree-one
coefficient that `np.polyfit(xs, ys, 1)[0]` computes (v2, line 231),
in exact rational arithmetic.  A singular normal equation (all `xs`
equal) yields `0` via rational division by zero. -/
def polyfitSlope (xs ys : List ℚ) : ℚ :=
  let n : ℚ := xs.length
  let sx := xs.sum
  let sy := ys.sum
  let sxx := (xs.map (fun x => x * x)).sum
  let sxy := ((xs.zip ys).map (fun q => q.1 * q.2)).sum
  (n * sxy - sx * sy) / (n * sxx - sx * sx)

/-- NaN-aware mean (`np.nanmean`): the mean of the non-NaN cells of a
flattened grid; an all-NaN (or empty) grid yields NaN (`none`), exactly
numpy's behaviour of returning NaN with a warning. -/
def nanmean (a : List (Option ℚ)) : Option ℚ :=
  let vals := a.filterMap id
  if vals.length = 0 then none else some (vals.sum / (vals.length : ℚ))

/-- NaN-aware spread of a flattened grid.  The source calls `np.nanstd`
(population standard deviation of the non-NaN cells); its square root is
irrational in general, so this field stores the squared value — the
NaN-aware population variance — which determines the source's value
uniquely.  No claim inspects this field. -/
def nanstd_sq (a : List (Option ℚ)) : Option ℚ :=
  let vals := a.filterMap id
  if vals.length = 0 then none
  else
    let m := vals.sum / (vals.length : ℚ)
    some ((vals.map (fun x => (x - m) * (x - m))).sum / (vals.length : ℚ))

/-- The radar-metrics dictionary consumed by `process_time_series`.  Of
the five keys built by `calculate_radar_backscatter` (v2 lines 136-160)
the aggregator reads only `vv_db` (the raw VV band in decibel), so only
that key is modelled. -/
structure RadarMetrics where
  vv_db : List (Option ℚ)

/-- One row of the aggregator's output DataFrame (v2 lines 195-201).
`mean_ndwi` and `mean_vv_backscatter` have an outer `Option` (`none` =
Python `None`, when no NDWI grid / radar dictionary was supplied for
this index) around an inner `Option` (`none` = NaN summary). -/
structure TimeSeriesRecord where
  date : ℤ
  mean_ndvi : Option ℚ
  std_ndvi : Option ℚ
  mean_ndwi : Option (Option ℚ)
  mean_vv_backscatter : Option (Option ℚ)

/-- Embedding of `SatelliteDataProcessor.process_time_series` (v2, lines
162-204): raises (returns `Except.error`) when the date list or NDVI
list is empty; otherwise iterates `for i, date in enumerate(dates)`,
keeping only indices with an NDVI grid (`if i < len(ndvi_series)`), and
builds one summary row per kept index. -/
def process_time_series (dates : List ℤ)
    (ndvi_series ndwi_series : List (List (Option ℚ)))
    (radar_series : List RadarMetrics) :
    Except String (List TimeSeriesRecord) :=
  if dates = [] ∨ ndvi_series = [] then
    Except.error "Time series data cannot be empty"
  else
    Except.ok <| dates.enum.filterMap (fun x =>
      (ndvi_series.get? x.1).map (fun ndvi =>
        { date := x.2
          mean_ndvi := nanmean ndvi
          std_ndvi := nanstd_sq ndvi
          mean_ndwi := (ndwi_series.get? x.1).map nanmean
          mean_vv_backscatter :=
            (radar_series.get? x.1).map (fun radar => nanmean radar.vv_db) }))

/-- The dictionary returned by `calculate_recovery_metrics` (v2, lines
221-252).  The keys `current_ndvi` and `baseline_ndvi` are missing from
the dictionary built on the empty-post-flood branch (lines 222-226), so
they are `Option` fields with `none` = key absent.  The always-present
key `time_to_recovery_days` carries a nullable value. -/
structure RecoveryMetrics where
  recovery_rate : ℚ
  time_to_recovery_days : Option ℚ
  recovery_percentage : ℚ
  current_ndvi : Option ℚ
  baseline_ndvi : Option ℚ
deriving DecidableEq

/-- Embedding of `SatelliteDataProcessor.calculate_recovery_metrics`
(v2, lines 206-252).  A time-series row is reduced to the two fields the
function reads: `date` (an integer day number, so that `(d - flood).days`
is exact subtraction) and `mean_ndvi`. -/
def calculate_recovery_metrics (ndvi_time_series : List (ℤ × ℚ))
    (flood_date : ℤ) : RecoveryMetrics :=
  let post_flood := ndvi_time_series.filter (fun r => decide (flood_date ≤ r.1))
  if post_flood.length = 0 then
    { recovery_rate := 0
      time_to_recovery_days := none
      recovery_percentage := 0
      current_ndvi := none
      baseline_ndvi := none }
  else
    let recovery_rate : ℚ :=
      if 1 < post_flood.length then
        polyfitSlope (post_flood.map (fun r => ((r.1 - flood_date : ℤ) : ℚ)))
          (post_flood.map (fun r => r.2))
      else 0
    let baseline_ndvi : ℚ := 6/10
    let current_ndvi : ℚ := ((post_flood.map (fun r => r.2)).getLast?).getD 0
    let recovery_percentage : ℚ :=
      if 0 < baseline_ndvi then min 100 (current_ndvi / baseline_ndvi * 100) else 0
    let days_to_recovery : Option ℚ :=
      if 0 < recovery_rate ∧ current_ndvi < baseline_ndvi then
        some ((baseline_ndvi - current_ndvi) / recovery_rate)
      else none
    { recovery_rate := recovery_rate
      time_to_recovery_days := days_to_recovery
      recovery_percentage := recovery_percentage
      current_ndvi := some current_ndvi
      baseline_ndvi := some baseline_ndvi }

/-- The hardcoded flood mask of `run_survival_analysis` (v3 lines
70-71): `flood_mask[150:350, 150:350] = True` on an all-False
`height × width` grid, with numpy slicing clipping the 350 bound at the
grid size. -/
def flood_mask (height width : ℕ) : Pix → Bool := fun p =>
  decide (150 ≤ p.1 ∧ p.1 < min 350 height ∧ 150 ≤ p.2 ∧ p.2 < min 350 width)

/-- The (row, column) domain of a `height × width` grid in row-major
order; numpy boolean indexing `t_matrix[flood_mask]` becomes a filter
over this list. -/
def pixels (height width : ℕ) : List Pix :=
  (List.range height).flatMap (fun i => (List.range width).map (fun j => (i, j)))

/-- The two per-pixel matrices of the survival scan (v3 lines 74-76):
`t_matrix` (time to event, float) and `e_matrix` (event observed,
0/1 int, modelled as `Bool`). -/
structure EventState where
  t : Pix → ℚ
  e : Pix → Bool

/-- One pass of the time loop of `run_survival_analysis` (v3 lines
79-89): at each step, pixels that are healed now (`ndvi ≥ threshold`),
were not yet observed (`e_matrix == 0`) and lie inside the flood mask
are frozen at `t = step + 1`, `e = 1`. -/
def survScanAux (recovery_threshold : Grid) (mask : Pix → Bool) :
    List Grid → ℕ → EventState → EventState
  | [], _, st => st
  | g :: rest, step, st =>
    let is_healed : Pix → Bool := fun p => decide (recovery_threshold p ≤ g p)
    let newly_healed : Pix → Bool := fun p =>
      is_healed p && (st.e p == false) && mask p
    survScanAux recovery_threshold mask rest (step + 1)
      { t := fun p => if newly_healed p then ((step + 1 : ℕ) : ℚ) else st.t p
        e := fun p => if newly_healed p then true else st.e p }

/-- The full scan (v3 lines 74-89): `t_matrix` starts at the stack
length (fully right-censored), `e_matrix` at 0, then the step loop
runs over the whole stack. -/
def survScan (ndvi_stack : List Grid) (recovery_threshold : Grid)
    (mask : Pix → Bool) : EventState :=
  survScanAux recovery_threshold mask ndvi_stack 0
    { t := fun _ => (ndvi_stack.length : ℚ), e := fun _ => false }

/-- Modelled from the spec: the distinct observed event times of a
censored sample — the times carrying the factors of the Kaplan–Meier
product-limit estimator.  The estimator itself lives in the external
`lifelines` library, absent from the repository; §4.4 and the glossary
describe it as the non-parametric survival-function estimate over
`(time_to_event, event_observed)` pairs. -/
def kmEventTimes (data : List (ℚ × Bool)) : List ℚ :=
  ((data.filter (fun x => x.2)).map (fun x => x.1)).dedup

/-- Modelled from the spec: the number of subjects still at risk just
before time `u` (event or censoring time at least `u`). -/
def kmAtRisk (data : List (ℚ × Bool)) (u : ℚ) : ℕ :=
  (data.filter (fun x => decide (u ≤ x.1))).length

/-- Modelled from the spec: the number of observed events at time `u`. -/
def kmDeaths (data : List (ℚ × Bool)) (u : ℚ) : ℕ :=
  (data.filter (fun x => decide (x.1 = u) && x.2)).length

/-- Modelled from the spec: the Kaplan–Meier product-limit estimate of
the survival probability at time `t`:
the product of `1 - deaths(u) / atRisk(u)` over the observed event
times `u ≤ t` ("probability land remains unrecovered", glossary). -/
def kmSurvival (data : List (ℚ × Bool)) (t : ℚ) : ℚ :=
  (((kmEventTimes data).filter (fun u => decide (u ≤ t))).map
    (fun u => 1 - (kmDeaths data u : ℚ) / (kmAtRisk data u : ℚ))).prod

/-- Modelled from the spec: `median_survival_time_` of the fitted
estimator — "the time at which the estimated survival probability first
falls to or below 0.5" (glossary).  The estimate only drops at observed
event times, so the first such time is the least event time whose
survival estimate is ≤ 1/2; when the estimate never reaches 1/2 the
library reports infinity (`⊤`). -/
def median_survival_time (data : List (ℚ × Bool)) : WithTop ℚ :=
  ((kmEventTimes data).filter (fun u => decide (kmSurvival data u ≤ 1/2))).minimum

/-- Cumulative observed events up to and including time `u`; proof-side
abbreviation used to state the closed form of `kmSurvival` on the
scan's output. -/
def cumEvents (data : List (ℚ × Bool)) (u : ℚ) : ℕ :=
  (data.filter (fun x => decide (x.1 ≤ u) && x.2)).length

/-- The dictionary returned by `run_survival_analysis` (v3 lines
104-108).  `recovery_map` is `t_matrix` only — the source does not
return `e_matrix`. -/
structure SurvivalMetrics where
  median_recovery_time : WithTop ℚ
  confidence_score : ℚ
  recovery_map : Pix → ℚ

/-- Embedding of `SatelliteAIProcessor.run_survival_analysis` (v3 lines
55-108): recovery threshold = baseline × 0.9 per pixel, hardcoded
central flood mask, censored scan over the stack, then — when the
masked sample is non-empty — the Kaplan–Meier fit over the masked
pixels' `(t, e)` pairs with `confidence = np.mean(flooded_e) * 100`;
otherwise the defaults `median_recovery = 0`, `confidence = 0`. -/
def run_survival_analysis (height width : ℕ) (ndvi_stack : List Grid)
    (baseline_ndvi : Grid) : SurvivalMetrics :=
  let recovery_threshold : Grid := fun p => baseline_ndvi p * (9/10)
  let mask := flood_mask height width
  let st := survScan ndvi_stack recovery_threshold mask
  let flooded := (pixels height width).filter (fun p => mask p)
  let flooded_t : List ℚ := flooded.map st.t
  let flooded_e : List Bool := flooded.map st.e
  if 0 < flooded_t.length then
    { median_recovery_time := median_survival_time (flooded_t.zip flooded_e)
      confidence_score :=
        (((flooded_e.filter (fun b => b)).length : ℚ) / (flooded_e.length : ℚ)) * 100
      recovery_map := st.t }
  else
    { median_recovery_time := 0
      confidence_score := 0
      recovery_map := st.t }

/-- Index of the first element at or above a threshold; proof-side
device describing one pixel's trajectory through the scan. -/
def firstCrossIdx (thr : ℚ) : List ℚ → Option ℕ
  | [] => none
  | x :: xs => if thr ≤ x then some 0 else (firstCrossIdx thr xs).map (fun j => j + 1)

/-- C6: `calculate_ndvi` never raises (it is a total function); a cell is
NaN exactly when `red + nir = 0` there; otherwise it equals
`(nir - red) / (nir + red)`; and for non-negative bands with nonzero sum
the value lies in `[-1, 1]`. -/
theorem c6_ndvi_cell_spec (red_band nir_band : Pix → ℚ) (p : Pix) :
    (calculate_ndvi red_band nir_band p = none ↔ nir_band p + red_band p = 0)
    ∧ (nir_band p + red_band p ≠ 0 →
        calculate_ndvi red_band nir_band p =
          some ((nir_band p - red_band p) / (nir_band p + red_band p)))
    ∧ (0 ≤ red_band p → 0 ≤ nir_band p → nir_band p + red_band p ≠ 0 →
        ∀ v, calculate_ndvi red_band nir_band p = some v → -1 ≤ v ∧ v ≤ 1) := by
  refine ⟨?_, ?_, ?_⟩
  · unfold calculate_ndvi
    dsimp only
    split <;> simp_all
  · intro h
    unfold calculate_ndvi
    dsimp only
    rw [if_neg h]
  · intro hr hn hsum v hv
    unfold calculate_ndvi at hv
    dsimp only at hv
    rw [if_neg hsum] at hv
    have hpos : 0 < nir_band p + red_band p :=
      lt_of_le_of_ne (add_nonneg hn hr) (Ne.symm hsum)
    have hv' : (nir_band p - red_band p) / (nir_band p + red_band p) = v :=
      Option.some.inj hv
    subst hv'
    constructor
    · rw [le_div_iff₀ hpos]
      linarith
    · rw [div_le_one hpos]
      linarith

/-- Concrete instantiation of the C6 theorem: constant bands
red = nir = 1 give NDVI 0, which lies in `[-1, 1]`. -/
theorem c6_ndvi_cell_spec_witness :
    ((1 : ℚ) + 1 ≠ 0)
    ∧ calculate_ndvi (fun _ => 1) (fun _ => 1) (0, 0) = some 0
    ∧ (-1 ≤ (0 : ℚ) ∧ (0 : ℚ) ≤ 1) := by
  have hform := (c6_ndvi_cell_spec (fun _ => 1) (fun _ => 1) (0, 0)).2.1 (by norm_num)
  have hval : calculate_ndvi (fun _ => 1) (fun _ => 1) (0, 0) = some 0 := by
    rw [hform]
    norm_num
  exact ⟨by norm_num, hval,
    (c6_ndvi_cell_spec (fun _ => 1) (fun _ => 1) (0, 0)).2.2 (by norm_num)
      (by norm_num) (by norm_num) 0 hval⟩

/-- C2 fails as stated: on an empty post-flood subset the returned
dictionary omits the keys `current_ndvi` and `baseline_ndvi` (v2 lines
222-226 build a three-key dictionary).  Concretely, an empty time series
with flood date 0 yields a record whose two optional keys are absent. -/
theorem c2_counterexample :
    (calculate_recovery_metrics [] 0).current_ndvi = none
    ∧ (calculate_recovery_metrics [] 0).baseline_ndvi = none := by
  constructor <;> rfl

/-- C2 (amended): the returned record always carries `recovery_rate`,
`time_to_recovery_days` and `recovery_percentage`; it carries
`current_ndvi` and `baseline_ndvi` exactly when the post-flood subset is
non-empty. -/
theorem c2_fields_present (ts : List (ℤ × ℚ)) (flood_date : ℤ) :
    ((calculate_recovery_metrics ts flood_date).current_ndvi.isSome ↔
      ts.filter (fun r => decide (flood_date ≤ r.1)) ≠ [])
    ∧ ((calculate_recovery_metrics ts flood_date).baseline_ndvi.isSome ↔
      ts.filter (fun r => decide (flood_date ≤ r.1)) ≠ []) := by
  unfold calculate_recovery_metrics
  dsimp only
  constructor <;>
  · split <;> simp_all [List.length_eq_zero] <;> assumption

/-- Concrete instantiation of the C2 (amended) theorem: a one-row
post-flood series carries the `current_ndvi` key. -/
theorem c2_fields_present_witness :
    (calculate_recovery_metrics [((0 : ℤ), (1 : ℚ)/2)] 0).current_ndvi.isSome := by
  exact (c2_fields_present [((0 : ℤ), (1 : ℚ)/2)] 0).1.mpr (by decide)

/-- C3: on a non-empty post-flood subset, `time_to_recovery_days` equals
`(baseline_ndvi - current_ndvi) / recovery_rate` exactly when
`recovery_rate > 0` and `current_ndvi < baseline_ndvi`, and is null in
every other case (the source computes this with a plain conditional,
never raising: the embedding is a total function). -/
theorem c3_time_to_recovery (ts : List (ℤ × ℚ)) (flood_date : ℤ)
    (h : ts.filter (fun r => decide (flood_date ≤ r.1)) ≠ []) :
    (calculate_recovery_metrics ts flood_date).time_to_recovery_days =
      if 0 < (calculate_recovery_metrics ts flood_date).recovery_rate ∧
          (calculate_recovery_metrics ts flood_date).current_ndvi.getD 0 <
            (calculate_recovery_metrics ts flood_date).baseline_ndvi.getD 0 then
        some (((calculate_recovery_metrics ts flood_date).baseline_ndvi.getD 0 -
            (calculate_recovery_metrics ts flood_date).current_ndvi.getD 0) /
          (calculate_recovery_metrics ts flood_date).recovery_rate)
      else none := by
  unfold calculate_recovery_metrics
  dsimp only
  rw [if_neg (by simpa [List.length_eq_zero] using h)]
  rfl

/-- Concrete instantiation of the C3 theorem: two post-flood rows with
slope 1/10, current NDVI 2/10 below baseline 6/10 — projected time to
recovery is exactly 4 days. -/
theorem c3_time_to_recovery_witness :
    (calculate_recovery_metrics [((0 : ℤ), (1 : ℚ)/10), ((1 : ℤ), (2 : ℚ)/10)]
      0).time_to_recovery_days = some 4 := by
  rw [c3_time_to_recovery [((0 : ℤ), (1 : ℚ)/10), ((1 : ℤ), (2 : ℚ)/10)] 0
    (by decide)]
  norm_num [calculate_recovery_metrics, polyfitSlope]

/-- C4: on a non-empty post-flood subset, `recovery_percentage` equals
`min 100 (100 * current_ndvi / baseline_ndvi)` when the baseline is
positive and `0` otherwise; in every case (empty subset included) the
percentage is at most 100. -/
theorem c4_recovery_percentage (ts : List (ℤ × ℚ)) (flood_date : ℤ) :
    (ts.filter (fun r => decide (flood_date ≤ r.1)) ≠ [] →
      (calculate_recovery_metrics ts flood_date).recovery_percentage =
        if 0 < (calculate_recovery_metrics ts flood_date).baseline_ndvi.getD 0 then
          min 100 (100 * ((calculate_recovery_metrics ts flood_date).current_ndvi.getD 0 /
            (calculate_recovery_metrics ts flood_date).baseline_ndvi.getD 0))
        else 0)
    ∧ (calculate_recovery_metrics ts flood_date).recovery_percentage ≤ 100 := by
  constructor
  · intro h
    unfold calculate_recovery_metrics
    dsimp only
    rw [if_neg (by simpa [List.length_eq_zero] using h)]
    dsimp only [Option.getD]
    rw [mul_comm (100 : ℚ)]
  · unfold calculate_recovery_metrics
    dsimp only
    split
    · norm_num
    · dsimp only
      rw [if_pos (by norm_num)]
      exact min_le_left _ _

/-- Concrete instantiation of the C4 theorem: a single post-flood row
with NDVI 3/10 against baseline 6/10 gives exactly 50 percent, at
most 100. -/
theorem c4_recovery_percentage_witness :
    (calculate_recovery_metrics [((0 : ℤ), (3 : ℚ)/10)] 0).recovery_percentage = 50
    ∧ (calculate_recovery_metrics [((0 : ℤ), (3 : ℚ)/10)] 0).recovery_percentage ≤ 100 := by
  constructor
  · rw [(c4_recovery_percentage [((0 : ℤ), (3 : ℚ)/10)] 0).1 (by decide)]
    norm_num [calculate_recovery_metrics]
  · exact (c4_recovery_percentage [((0 : ℤ), (3 : ℚ)/10)] 0).2

/-- C8: a post-flood subset of exactly one record yields
`recovery_rate = 0` (the regression branch needs at least two points)
and `time_to_recovery_days = null`. -/
theorem c8_single_record (ts : List (ℤ × ℚ)) (flood_date : ℤ)
    (h : (ts.filter (fun r => decide (flood_date ≤ r.1))).length = 1) :
    (calculate_recovery_metrics ts flood_date).recovery_rate = 0
    ∧ (calculate_recovery_metrics ts flood_date).time_to_recovery_days = none := by
  unfold calculate_recovery_metrics
  dsimp only
  rw [if_neg (by omega)]
  rw [h]
  norm_num

/-- Helper for C5: when every enumerated index has an NDVI grid, the
aggregation loop keeps every row, and the produced dates are the input
dates in order. -/
theorem filterMap_row_dates (ndvi_series ndwi_series : List (List (Option ℚ)))
    (radar_series : List RadarMetrics) :
    ∀ (ds : List ℤ) (n : ℕ), n + ds.length ≤ ndvi_series.length →
      ((List.enumFrom n ds).filterMap (fun x =>
        (ndvi_series.get? x.1).map (fun ndvi =>
          ({ date := x.2
             mean_ndvi := nanmean ndvi
             std_ndvi := nanstd_sq ndvi
             mean_ndwi := (ndwi_series.get? x.1).map nanmean
             mean_vv_backscatter :=
               (radar_series.get? x.1).map (fun radar => nanmean radar.vv_db) } :
            TimeSeriesRecord)))).map (fun r => r.date) = ds := by
  intro ds
  induction ds with
  | nil => intro n _; rfl
  | cons d tl ih =>
    intro n h
    have hn : n < ndvi_series.length := by
      simp only [List.length_cons] at h
      omega
    obtain ⟨g, hg⟩ : ∃ g, ndvi_series.get? n = some g :=
      ⟨_, List.get?_eq_get hn⟩
    show ((List.filterMap _ ((n, d) :: List.enumFrom (n + 1) tl)).map _) = _
    rw [List.filterMap_cons]
    dsimp only
    rw [hg]
    dsimp only [Option.map_some']
    rw [List.map_cons]
    have := ih (n + 1) (by simp only [List.length_cons] at h; omega)
    rw [this]

/-- C5: with date list and per-date grid lists of equal length, the
aggregator fails with the empty-input error exactly when the sequence is
empty (no partial result accompanies the error), and on non-empty input
it produces one record per acquisition, in input order (the output's
dates are exactly the input dates). -/
theorem c5_empty_input_iff (dates : List ℤ)
    (ndvi_series ndwi_series : List (List (Option ℚ)))
    (radar_series : List RadarMetrics)
    (h1 : dates.length = ndvi_series.length)
    (h2 : dates.length = ndwi_series.length)
    (h3 : dates.length = radar_series.length) :
    ((∃ e, process_time_series dates ndvi_series ndwi_series radar_series =
        Except.error e) ↔ dates = [])
    ∧ ∀ res, process_time_series dates ndvi_series ndwi_series radar_series =
        Except.ok res → res.map (fun r => r.date) = dates := by
  by_cases hd : dates = []
  · subst hd
    constructor
    · simp [process_time_series]
    · intro res hres
      simp [process_time_series] at hres
  · have hnd : ndvi_series ≠ [] := by
      intro h0
      rw [h0] at h1
      exact hd (List.length_eq_zero.mp h1)
    unfold process_time_series
    rw [if_neg (by simp [hd, hnd])]
    constructor
    · simp [hd]
    · intro res hres
      have hres' : dates.enum.filterMap _ = res := Except.ok.inj hres
      rw [← hres']
      exact filterMap_row_dates ndvi_series ndwi_series radar_series dates 0
        (by omega)

/-- Concrete instantiation of the C5 theorem: a one-acquisition input is
accepted and yields exactly its date, and is not an error. -/
theorem c5_empty_input_iff_witness :
    (¬ ∃ e, process_time_series [(7 : ℤ)] [[some 1]] [[some 1]]
        [{ vv_db := [some 0] }] = Except.error e)
    ∧ ∀ res, process_time_series [(7 : ℤ)] [[some 1]] [[some 1]]
        [{ vv_db := [some 0] }] = Except.ok res →
        res.map (fun r => r.date) = [(7 : ℤ)] := by
  have h := c5_empty_input_iff [(7 : ℤ)] [[some 1]] [[some 1]]
    [{ vv_db := [some 0] }] rfl rfl rfl
  exact ⟨fun he => by simpa using h.1.mp he, h.2⟩

/-- Concrete instantiation of the C8 theorem: one post-flood row. -/
theorem c8_single_record_witness :
    (calculate_recovery_metrics [((5 : ℤ), (1 : ℚ)/2)] 3).recovery_rate = 0
    ∧ (calculate_recovery_metrics [((5 : ℤ), (1 : ℚ)/2)] 3).time_to_recovery_days = none :=
  c8_single_record [((5 : ℤ), (1 : ℚ)/2)] 3 (by decide)

/-- A pixel outside the flood mask is never touched by the scan loop. -/
theorem survScanAux_unmasked (recovery_threshold : Grid) (mask : Pix → Bool)
    (p : Pix) (hp : mask p = false) :
    ∀ (gs : List Grid) (step : ℕ) (st : EventState),
      (survScanAux recovery_threshold mask gs step st).t p = st.t p
      ∧ (survScanAux recovery_threshold mask gs step st).e p = st.e p := by
  intro gs
  induction gs with
  | nil => intro step st; exact ⟨rfl, rfl⟩
  | cons g rest ih =>
    intro step st
    simp only [survScanAux]
    have h := ih (step + 1)
      { t := fun q =>
          if decide (recovery_threshold q ≤ g q) && (st.e q == false) && mask q then
            ((step + 1 : ℕ) : ℚ)
          else st.t q
        e := fun q =>
          if decide (recovery_threshold q ≤ g q) && (st.e q == false) && mask q then
            true
          else st.e q }
    rw [h.1, h.2]
    simp [hp]

/-- An already-observed pixel is frozen: the remaining steps change
neither its event time nor its flag. -/
theorem survScanAux_observed (recovery_threshold : Grid) (mask : Pix → Bool)
    (p : Pix) :
    ∀ (gs : List Grid) (step : ℕ) (st : EventState), st.e p = true →
      (survScanAux recovery_threshold mask gs step st).t p = st.t p
      ∧ (survScanAux recovery_threshold mask gs step st).e p = true := by
  intro gs
  induction gs with
  | nil => intro step st he; exact ⟨rfl, he⟩
  | cons g rest ih =>
    intro step st he
    simp only [survScanAux]
    have h := ih (step + 1)
      { t := fun q =>
          if decide (recovery_threshold q ≤ g q) && (st.e q == false) && mask q then
            ((step + 1 : ℕ) : ℚ)
          else st.t q
        e := fun q =>
          if decide (recovery_threshold q ≤ g q) && (st.e q == false) && mask q then
            true
          else st.e q }
      (by simp [he])
    rw [h.1, h.2]
    simp [he]

/-- A masked, not-yet-observed pixel follows its trajectory's first
threshold crossing: it is frozen at `step + j + 1` when position `j`
of the remaining trajectory first crosses, and keeps its state when no
position does. -/
theorem survScanAux_active (recovery_threshold : Grid) (mask : Pix → Bool)
    (p : Pix) (hp : mask p = true) :
    ∀ (gs : List Grid) (step : ℕ) (st : EventState), st.e p = false →
      (∀ j, firstCrossIdx (recovery_threshold p) (gs.map (fun g => g p)) = some j →
        (survScanAux recovery_threshold mask gs step st).t p = ((step + j + 1 : ℕ) : ℚ)
        ∧ (survScanAux recovery_threshold mask gs step st).e p = true)
      ∧ (firstCrossIdx (recovery_threshold p) (gs.map (fun g => g p)) = none →
        (survScanAux recovery_threshold mask gs step st).t p = st.t p
        ∧ (survScanAux recovery_threshold mask gs step st).e p = false) := by
  intro gs
  induction gs with
  | nil =>
    intro step st he
    refine ⟨fun j hj => by simp [firstCrossIdx] at hj, fun _ => ⟨rfl, he⟩⟩
  | cons g rest ih =>
    intro step st he
    simp only [survScanAux, List.map_cons, firstCrossIdx]
    by_cases hcross : recovery_threshold p ≤ g p
    · rw [if_pos hcross]
      have hobs := survScanAux_observed recovery_threshold mask p rest (step + 1)
        { t := fun q =>
            if decide (recovery_threshold q ≤ g q) && (st.e q == false) && mask q then
              ((step + 1 : ℕ) : ℚ)
            else st.t q
          e := fun q =>
            if decide (recovery_threshold q ≤ g q) && (st.e q == false) && mask q then
              true
            else st.e q }
        (by simp [hcross, he, hp])
      constructor
      · intro j hj
        have hj0 : j = 0 := by
          simpa using hj.symm
        subst hj0
        refine ⟨?_, hobs.2⟩
        rw [hobs.1]
        simp [hcross, he, hp]
      · intro hnone
        exact absurd hnone (by simp)
    · rw [if_neg hcross]
      have hst' :
          ({ t := fun q =>
              if decide (recovery_threshold q ≤ g q) && (st.e q == false) && mask q then
                ((step + 1 : ℕ) : ℚ)
              else st.t q
             e := fun q =>
              if decide (recovery_threshold q ≤ g q) && (st.e q == false) && mask q then
                true
              else st.e q } : EventState).e p = false := by
        simp [hcross, he]
      have h := ih (step + 1) _ hst'
      constructor
      · intro j hj
        obtain ⟨j', hj', hjj⟩ := Option.map_eq_some'.mp hj
        subst hjj
        have := (h.1 j' hj')
        refine ⟨?_, this.2⟩
        rw [this.1]
        congr 1
        omega
      · intro hnone
        have hr : firstCrossIdx (recovery_threshold p) (rest.map (fun g => g p)) = none := by
          simpa using hnone
        have := h.2 hr
        refine ⟨?_, this.2⟩
        rw [this.1]
        simp [hcross, he]

/-- Characterization of the whole scan at one pixel: unmasked pixels
keep the censored defaults; masked pixels freeze at their first
crossing (0-indexed position `j` gives time `j + 1`) or keep the
defaults when they never cross. -/
theorem survScan_pixel (ndvi_stack : List Grid) (recovery_threshold : Grid)
    (mask : Pix → Bool) (p : Pix) :
    (mask p = false →
      (survScan ndvi_stack recovery_threshold mask).t p = (ndvi_stack.length : ℚ)
      ∧ (survScan ndvi_stack recovery_threshold mask).e p = false)
    ∧ (mask p = true →
      (∀ j, firstCrossIdx (recovery_threshold p) (ndvi_stack.map (fun g => g p)) = some j →
        (survScan ndvi_stack recovery_threshold mask).t p = ((j + 1 : ℕ) : ℚ)
        ∧ (survScan ndvi_stack recovery_threshold mask).e p = true)
      ∧ (firstCrossIdx (recovery_threshold p) (ndvi_stack.map (fun g => g p)) = none →
        (survScan ndvi_stack recovery_threshold mask).t p = (ndvi_stack.length : ℚ)
        ∧ (survScan ndvi_stack recovery_threshold mask).e p = false)) := by
  constructor
  · intro hp
    exact survScanAux_unmasked recovery_threshold mask p hp ndvi_stack 0 _
  · intro hp
    have h := survScanAux_active recovery_threshold mask p hp ndvi_stack 0
      { t := fun _ => (ndvi_stack.length : ℚ), e := fun _ => false } rfl
    exact ⟨fun j hj => by simpa using h.1 j hj, h.2⟩

/-- A first-crossing index points inside the trajectory. -/
theorem firstCrossIdx_lt_length (thr : ℚ) :
    ∀ (xs : List ℚ) (j : ℕ), firstCrossIdx thr xs = some j → j < xs.length := by
  intro xs
  induction xs with
  | nil => intro j hj; simp [firstCrossIdx] at hj
  | cons x rest ih =>
    intro j hj
    simp only [firstCrossIdx] at hj
    by_cases hx : thr ≤ x
    · rw [if_pos hx] at hj
      have : j = 0 := by simpa using hj.symm
      subst this
      simp
    · rw [if_neg hx] at hj
      obtain ⟨j', hj', hjj⟩ := Option.map_eq_some'.mp hj
      subst hjj
      have := ih j' hj'
      simp only [List.length_cons]
      omega

/-- The position of the first value at or above the threshold, when all
earlier positions are strictly below it, is the first-crossing index. -/
theorem firstCrossIdx_eq_some_of (thr : ℚ) :
    ∀ (xs : List ℚ) (k : ℕ) (hk : k < xs.length),
      (∀ x ∈ xs.take k, x < thr) → thr ≤ xs.get ⟨k, hk⟩ →
      firstCrossIdx thr xs = some k := by
  intro xs
  induction xs with
  | nil => intro k hk; simp at hk
  | cons x rest ih =>
    intro k hk hbelow hcross
    cases k with
    | zero =>
      simp only [List.get] at hcross
      simp [firstCrossIdx, hcross]
    | succ k' =>
      have hx : x < thr := hbelow x (by simp [List.take_succ_cons])
      have hbelow' : ∀ y ∈ rest.take k', y < thr := fun y hy =>
        hbelow y (by simp [List.take_succ_cons, hy])
      have hk' : k' < rest.length := by
        simp only [List.length_cons] at hk
        omega
      have := ih k' hk' hbelow' hcross
      simp [firstCrossIdx, not_le.mpr hx, this]

/-- A trajectory entirely below the threshold has no crossing. -/
theorem firstCrossIdx_eq_none_of (thr : ℚ) :
    ∀ (xs : List ℚ), (∀ x ∈ xs, x < thr) → firstCrossIdx thr xs = none := by
  intro xs
  induction xs with
  | nil => intro _; rfl
  | cons x rest ih =>
    intro hbelow
    have hx : x < thr := hbelow x (by simp)
    simp [firstCrossIdx, not_le.mpr hx, ih (fun y hy => hbelow y (by simp [hy]))]

/-- A crossing surviving truncation: the first crossing at position `k`
is still the first crossing of any prefix longer than `k`. -/
theorem firstCrossIdx_take (thr : ℚ) :
    ∀ (xs : List ℚ) (k m : ℕ), k < m → firstCrossIdx thr xs = some k →
      firstCrossIdx thr (xs.take m) = some k := by
  intro xs
  induction xs with
  | nil => intro k m _ h; simp [firstCrossIdx] at h
  | cons x rest ih =>
    intro k m hkm h
    obtain ⟨m', rfl⟩ : ∃ m', m = m' + 1 := ⟨m - 1, by omega⟩
    rw [List.take_succ_cons]
    simp only [firstCrossIdx] at h ⊢
    by_cases hx : thr ≤ x
    · rw [if_pos hx] at h ⊢
      exact h
    · rw [if_neg hx] at h ⊢
      obtain ⟨k', hk', hkk⟩ := Option.map_eq_some'.mp h
      subst hkk
      rw [ih k' m' (by omega) hk']
      rfl

/-- Raising the threshold can only delay (or remove) the first
crossing. -/
theorem firstCrossIdx_mono (thr1 thr2 : ℚ) (h12 : thr1 ≤ thr2) :
    ∀ (xs : List ℚ) (j : ℕ), firstCrossIdx thr2 xs = some j →
      ∃ i, i ≤ j ∧ firstCrossIdx thr1 xs = some i := by
  intro xs
  induction xs with
  | nil => intro j hj; simp [firstCrossIdx] at hj
  | cons x rest ih =>
    intro j hj
    simp only [firstCrossIdx] at hj ⊢
    by_cases hx2 : thr2 ≤ x
    · rw [if_pos hx2] at hj
      have hj0 : j = 0 := by simpa using hj.symm
      subst hj0
      refine ⟨0, le_refl 0, ?_⟩
      rw [if_pos (le_trans h12 hx2)]
    · rw [if_neg hx2] at hj
      obtain ⟨j', hj', hjj⟩ := Option.map_eq_some'.mp hj
      subst hjj
      by_cases hx1 : thr1 ≤ x
      · exact ⟨0, by omega, by rw [if_pos hx1]⟩
      · obtain ⟨i', hi', hfc⟩ := ih j' hj'
        exact ⟨i' + 1, by omega, by rw [if_neg hx1, hfc]; rfl⟩

/-- Both branches of `run_survival_analysis` return `t_matrix` as the
recovery map. -/
theorem run_survival_analysis_recovery_map (height width : ℕ)
    (ndvi_stack : List Grid) (baseline_ndvi : Grid) :
    (run_survival_analysis height width ndvi_stack baseline_ndvi).recovery_map =
      (survScan ndvi_stack (fun q => baseline_ndvi q * (9/10))
        (flood_mask height width)).t := by
  unfold run_survival_analysis
  dsimp only
  split <;> rfl

/-- C1: for a pixel inside the flood mask whose NDVI trajectory first
reaches the recovery threshold (baseline × 0.9) at 0-indexed step `k` —
1-indexed step `k + 1` — the scan freezes `time_to_event = k + 1` and
`event_observed = true`: the state after every longer prefix of the
step loop, and the final returned recovery map, carry exactly these
values no matter what the trajectory does after step `k`; a masked
pixel that never reaches the threshold ends with
`time_to_event = num_time_steps` and `event_observed = false`. -/
theorem c1_first_crossing_freezes (height width : ℕ) (ndvi_stack : List Grid)
    (baseline_ndvi : Grid) (p : Pix)
    (hp : flood_mask height width p = true) :
    (∀ k (hk : k < ndvi_stack.length),
      (∀ g ∈ ndvi_stack.take k, g p < baseline_ndvi p * (9/10)) →
      baseline_ndvi p * (9/10) ≤ (ndvi_stack.get ⟨k, hk⟩) p →
      (∀ m, k < m → m ≤ ndvi_stack.length →
        (survScanAux (fun q => baseline_ndvi q * (9/10)) (flood_mask height width)
          (ndvi_stack.take m) 0
          { t := fun _ => (ndvi_stack.length : ℚ), e := fun _ => false }).t p
            = ((k + 1 : ℕ) : ℚ)
        ∧ (survScanAux (fun q => baseline_ndvi q * (9/10)) (flood_mask height width)
          (ndvi_stack.take m) 0
          { t := fun _ => (ndvi_stack.length : ℚ), e := fun _ => false }).e p = true)
      ∧ (run_survival_analysis height width ndvi_stack baseline_ndvi).recovery_map p
          = ((k + 1 : ℕ) : ℚ))
    ∧ ((∀ g ∈ ndvi_stack, g p < baseline_ndvi p * (9/10)) →
      (run_survival_analysis height width ndvi_stack baseline_ndvi).recovery_map p
        = (ndvi_stack.length : ℚ)
      ∧ (survScan ndvi_stack (fun q => baseline_ndvi q * (9/10))
          (flood_mask height width)).e p = false) := by
  constructor
  · intro k hk hbelow hcross
    have hfc : firstCrossIdx (baseline_ndvi p * (9/10))
        (ndvi_stack.map (fun g => g p)) = some k := by
      apply firstCrossIdx_eq_some_of _ _ k (by simpa using hk)
      · intro x hx
        rw [← List.map_take] at hx
        obtain ⟨g, hg, rfl⟩ := List.mem_map.mp hx
        exact hbelow g hg
      · rw [List.get_map]
        exact hcross
    constructor
    · intro m hkm hm
      have hfc' : firstCrossIdx (baseline_ndvi p * (9/10))
          ((ndvi_stack.take m).map (fun g => g p)) = some k := by
        rw [List.map_take]
        exact firstCrossIdx_take _ _ k m hkm hfc
      have h := (survScanAux_active (fun q => baseline_ndvi q * (9/10))
        (flood_mask height width) p hp (ndvi_stack.take m) 0
        { t := fun _ => (ndvi_stack.length : ℚ), e := fun _ => false } rfl).1 k hfc'
      simpa using h
    · rw [run_survival_analysis_recovery_map]
      exact ((survScan_pixel ndvi_stack (fun q => baseline_ndvi q * (9/10))
        (flood_mask height width) p).2 hp).1 k hfc |>.1
  · intro hallbelow
    have hfc : firstCrossIdx (baseline_ndvi p * (9/10))
        (ndvi_stack.map (fun g => g p)) = none := by
      apply firstCrossIdx_eq_none_of
      intro x hx
      obtain ⟨g, hg, rfl⟩ := List.mem_map.mp hx
      exact hallbelow g hg
    have h := ((survScan_pixel ndvi_stack (fun q => baseline_ndvi q * (9/10))
      (flood_mask height width) p).2 hp).2 hfc
    rw [run_survival_analysis_recovery_map]
    exact h

/-- Concrete instantiation of the C1 theorem: a masked pixel crossing
at 1-indexed step 2 of a two-step stack gets recovery-map value 2 and
an observed event, already at the prefix of length 2. -/
theorem c1_first_crossing_freezes_witness :
    (run_survival_analysis 500 500 [fun _ => 0, fun _ => (1 : ℚ)]
      (fun _ => 1)).recovery_map (200, 200) = (2 : ℚ)
    ∧ (survScanAux (fun q => (fun _ => (1 : ℚ)) q * (9/10)) (flood_mask 500 500)
        ([fun _ => 0, fun _ => (1 : ℚ)].take 2) 0
        { t := fun _ => (([fun _ => 0, fun _ => (1 : ℚ)] : List Grid).length : ℚ),
          e := fun _ => false }).e (200, 200) = true := by
  have h := (c1_first_crossing_freezes 500 500 [fun _ => 0, fun _ => (1 : ℚ)]
    (fun _ => 1) (200, 200) (by decide)).1 1 (by simp)
    (by
      intro g hg
      simp only [List.take_succ_cons, List.take_zero, List.mem_singleton] at hg
      subst hg
      norm_num)
    (by
      show (1 : ℚ) * (9/10) ≤ 1
      norm_num)
  refine ⟨?_, (h.1 2 (by norm_num) (by norm_num)).2⟩
  have := h.2
  rw [this]
  norm_num

/-- C10: a pixel outside the flood mask keeps the censored defaults —
`time_to_event = num_time_steps`, `event_observed = false` — after
every prefix of the scan (even when its NDVI reaches the threshold),
and in the returned recovery map. -/
theorem c10_unmasked_pixel_censored (height width : ℕ) (ndvi_stack : List Grid)
    (baseline_ndvi : Grid) (p : Pix)
    (hp : flood_mask height width p = false) :
    (∀ m, m ≤ ndvi_stack.length →
      (survScanAux (fun q => baseline_ndvi q * (9/10)) (flood_mask height width)
        (ndvi_stack.take m) 0
        { t := fun _ => (ndvi_stack.length : ℚ), e := fun _ => false }).t p
          = (ndvi_stack.length : ℚ)
      ∧ (survScanAux (fun q => baseline_ndvi q * (9/10)) (flood_mask height width)
        (ndvi_stack.take m) 0
        { t := fun _ => (ndvi_stack.length : ℚ), e := fun _ => false }).e p = false)
    ∧ (run_survival_analysis height width ndvi_stack baseline_ndvi).recovery_map p
        = (ndvi_stack.length : ℚ) := by
  constructor
  · intro m _
    exact survScanAux_unmasked (fun q => baseline_ndvi q * (9/10))
      (flood_mask height width) p hp (ndvi_stack.take m) 0 _
  · rw [run_survival_analysis_recovery_map]
    exact ((survScan_pixel ndvi_stack (fun q => baseline_ndvi q * (9/10))
      (flood_mask height width) p).1 hp).1

/-- Concrete instantiation of the C10 theorem: pixel (0, 0) is outside
the hardcoded mask; its NDVI value 1 exceeds the threshold 0 at step 1,
yet it stays censored with recovery-map value 1 (= stack length). -/
theorem c10_unmasked_pixel_censored_witness :
    (run_survival_analysis 500 500 [fun _ => (1 : ℚ)] (fun _ => 0)).recovery_map
      (0, 0) = (1 : ℚ)
    ∧ (survScanAux (fun q => (fun _ => (0 : ℚ)) q * (9/10)) (flood_mask 500 500)
        (([fun _ => (1 : ℚ)] : List Grid).take 1) 0
        { t := fun _ => (([fun _ => (1 : ℚ)] : List Grid).length : ℚ),
          e := fun _ => false }).e (0, 0) = false := by
  have h := c10_unmasked_pixel_censored 500 500 [fun _ => (1 : ℚ)] (fun _ => 0)
    (0, 0) (by decide)
  refine ⟨?_, (h.1 1 (by norm_num)).2⟩
  rw [h.2]
  norm_num

/-- Membership in the grid domain list. -/
theorem mem_pixels (height width : ℕ) (p : Pix) :
    p ∈ pixels height width ↔ p.1 < height ∧ p.2 < width := by
  obtain ⟨a, b⟩ := p
  simp only [pixels, List.mem_flatMap, List.mem_map, List.mem_range]
  constructor
  · rintro ⟨i, hi, j, hj, hij⟩
    cases hij
    exact ⟨hi, hj⟩
  · rintro ⟨h1, h2⟩
    exact ⟨a, h1, b, h2, rfl⟩

/-- C7: with at least one pixel in the flood mask, the returned
`confidence_score` is `100 × observed / masked` (observed = masked
pixels whose event flag is set, masked = pixels of the domain inside
the mask); with no masked pixel, `median_recovery_time = 0` and
`confidence_score = 0` are returned directly — the Kaplan–Meier fit is
skipped and the defaults are reported. -/
theorem c7_confidence_score (height width : ℕ) (ndvi_stack : List Grid)
    (baseline_ndvi : Grid) :
    (((pixels height width).filter (fun p => flood_mask height width p)).length = 0 →
      (run_survival_analysis height width ndvi_stack baseline_ndvi).median_recovery_time
          = 0
      ∧ (run_survival_analysis height width ndvi_stack baseline_ndvi).confidence_score
          = 0)
    ∧ (0 < ((pixels height width).filter (fun p => flood_mask height width p)).length →
      (run_survival_analysis height width ndvi_stack baseline_ndvi).confidence_score =
        100 * ((((pixels height width).filter (fun p => flood_mask height width p)).filter
            (fun p => (survScan ndvi_stack (fun q => baseline_ndvi q * (9/10))
              (flood_mask height width)).e p)).length : ℚ) /
          (((pixels height width).filter (fun p => flood_mask height width p)).length : ℚ)) := by
  unfold run_survival_analysis
  dsimp only
  simp only [List.length_map]
  constructor
  · intro h0
    rw [if_neg (by omega)]
    exact ⟨rfl, rfl⟩
  · intro hpos
    rw [if_pos hpos]
    dsimp only
    rw [List.filter_map]
    simp only [List.length_map, Function.comp_def]
    ring

/-- Concrete instantiations of the C7 theorem: a 10 × 10 grid has no
masked pixel, so both defaults are returned; a 151 × 151 grid has a
masked pixel, so the confidence formula holds there. -/
theorem c7_confidence_score_witness :
    ((run_survival_analysis 10 10 [] (fun _ => 0)).median_recovery_time = 0
      ∧ (run_survival_analysis 10 10 [] (fun _ => 0)).confidence_score = 0)
    ∧ (run_survival_analysis 151 151 [] (fun _ => 0)).confidence_score =
        100 * ((((pixels 151 151).filter (fun p => flood_mask 151 151 p)).filter
            (fun p => (survScan [] (fun q => (fun _ => (0 : ℚ)) q * (9/10))
              (flood_mask 151 151)).e p)).length : ℚ) /
          (((pixels 151 151).filter (fun p => flood_mask 151 151 p)).length : ℚ) := by
  constructor
  · exact (c7_confidence_score 10 10 [] (fun _ => 0)).1 (by decide)
  · apply (c7_confidence_score 151 151 [] (fun _ => 0)).2
    have hmem : ((150, 150) : Pix) ∈
        (pixels 151 151).filter (fun p => flood_mask 151 151 p) := by
      refine List.mem_filter.mpr ⟨?_, by decide⟩
      exact (mem_pixels 151 151 (150, 150)).mpr ⟨by norm_num, by norm_num⟩
    exact List.length_pos.mpr (List.ne_nil_of_mem hmem)

/-- Counting helper: filters by pointwise-equal predicates have equal
length. -/
theorem length_filter_congr_pred {α : Type} (l : List α) (p q : α → Bool)
    (h : ∀ a ∈ l, p a = q a) : (l.filter p).length = (l.filter q).length := by
  induction l with
  | nil => rfl
  | cons x rest ih =>
    have hx := h x (by simp)
    have ih' := ih (fun a ha => h a (by simp [ha]))
    by_cases hp : p x = true
    · simp [List.filter_cons, hp, hx ▸ hp, ih']
    · have hp' : p x = false := by revert hp; cases p x <;> simp
      simp [List.filter_cons, hp', hx ▸ hp', ih']

/-- Counting helper: a disjunction of predicates that never hold
together counts each side once. -/
theorem length_filter_disjoint_or {α : Type} (l : List α) (p q : α → Bool)
    (hdisj : ∀ a ∈ l, ¬(p a = true ∧ q a = true)) :
    (l.filter (fun a => p a || q a)).length
      = (l.filter p).length + (l.filter q).length := by
  induction l with
  | nil => rfl
  | cons x rest ih =>
    have hx := hdisj x (by simp)
    have ih' := ih (fun a ha => hdisj a (by simp [ha]))
    by_cases hp : p x = true
    · have hq : q x = false := by
        revert hx
        cases q x <;> simp [hp]
      simp [List.filter_cons, hp, hq, ih']
      omega
    · have hp' : p x = false := by revert hp; cases p x <;> simp
      by_cases hq : q x = true
      · simp [List.filter_cons, hp', hq, ih']
        omega
      · have hq' : q x = false := by revert hq; cases q x <;> simp
        simp [List.filter_cons, hp', hq', ih']

/-- Counting helper: a predicate and its negation split the length. -/
theorem length_filter_compl {α : Type} (l : List α) (p : α → Bool) :
    (l.filter p).length + (l.filter (fun a => !(p a))).length = l.length := by
  induction l with
  | nil => rfl
  | cons x rest ih =>
    by_cases hp : p x = true
    · simp [List.filter_cons, hp, Nat.succ_eq_add_one]
      omega
    · have hp' : p x = false := by revert hp; cases p x <;> simp
      simp [List.filter_cons, hp']
      omega

/-- Counting helper: a pointwise-weaker predicate keeps at most as many
elements. -/
theorem length_filter_le_of_imp {α : Type} (l : List α) (p q : α → Bool)
    (h : ∀ a ∈ l, p a = true → q a = true) :
    (l.filter p).length ≤ (l.filter q).length := by
  induction l with
  | nil => exact le_refl 0
  | cons x rest ih =>
    have ih' := ih (fun a ha => h a (by simp [ha]))
    by_cases hp : p x = true
    · simp [List.filter_cons, hp, h x (by simp) hp]
      omega
    · have hp' : p x = false := by revert hp; cases p x <;> simp
      by_cases hq : q x = true
      · simp [List.filter_cons, hp', hq]
        omega
      · have hq' : q x = false := by revert hq; cases q x <;> simp
        simp [List.filter_cons, hp', hq', ih']

/-- A time is an observed event time iff some observed event happens
there. -/
theorem mem_kmEventTimes (data : List (ℚ × Bool)) (v : ℚ) :
    v ∈ kmEventTimes data ↔ ∃ x ∈ data, x.2 = true ∧ x.1 = v := by
  unfold kmEventTimes
  rw [List.mem_dedup]
  simp only [List.mem_map, List.mem_filter]
  constructor
  · rintro ⟨x, ⟨hx, hx2⟩, hx1⟩
    exact ⟨x, hx, hx2, hx1⟩
  · rintro ⟨x, hx, hx2, hx1⟩
    exact ⟨x, ⟨hx, hx2⟩, hx1⟩

/-- Every observed event time carries at least one death. -/
theorem kmDeaths_pos (data : List (ℚ × Bool)) (v : ℚ)
    (hv : v ∈ kmEventTimes data) : 1 ≤ kmDeaths data v := by
  obtain ⟨x, hx, hx2, hx1⟩ := (mem_kmEventTimes data v).mp hv
  have hmem : x ∈ data.filter (fun x => decide (x.1 = v) && x.2) :=
    List.mem_filter.mpr ⟨hx, by simp [hx1, hx2]⟩
  have := List.length_pos.mpr (List.ne_nil_of_mem hmem)
  unfold kmDeaths
  omega

/-- Deaths at a time are part of the at-risk set there. -/
theorem kmDeaths_le_atRisk (data : List (ℚ × Bool)) (v : ℚ) :
    kmDeaths data v ≤ kmAtRisk data v := by
  unfold kmDeaths kmAtRisk
  apply length_filter_le_of_imp
  intro a _ ha
  have h1 : a.1 = v := by
    have := (Bool.and_eq_true _ _).mp ha
    exact of_decide_eq_true this.1
  simp [h1]

/-- With all censoring at the horizon `T`, the at-risk count at any
time `v ≤ T` is the total count minus the events strictly before `v`. -/
theorem kmAtRisk_closed (data : List (ℚ × Bool)) (T : ℚ)
    (hc : ∀ x ∈ data, x.2 = false → x.1 = T)
    (v : ℚ) (hv : v ≤ T) :
    kmAtRisk data v + (data.filter (fun x => decide (x.1 < v) && x.2)).length
      = data.length := by
  have hcompl := length_filter_compl data (fun x => decide (v ≤ x.1))
  have hcongr : ∀ a ∈ data,
      (!(decide (v ≤ a.1))) = (decide (a.1 < v) && a.2) := by
    intro a ha
    by_cases hle : v ≤ a.1
    · simp [hle, not_lt.mpr hle]
    · have hlt : a.1 < v := not_le.mp hle
      have ha2 : a.2 = true := by
        by_contra h2
        have h2' : a.2 = false := by revert h2; cases a.2 <;> simp
        have := hc a ha h2'
        rw [this] at hlt
        exact absurd hv (not_le.mpr hlt)
      simp [hle, hlt, ha2]
  rw [length_filter_congr_pred data _ _ hcongr] at hcompl
  exact hcompl

/-- Product-limit telescoping: over any downward-closed finite set `A`
of observed event times of a sample whose censoring all happens at the
horizon `T`, the Kaplan–Meier product equals
`(n - events with time in A) / n`. -/
theorem kmProd_closed (data : List (ℚ × Bool)) (T : ℚ)
    (hT : ∀ x ∈ data, x.1 ≤ T) (hc : ∀ x ∈ data, x.2 = false → x.1 = T)
    (hn : data ≠ []) :
    ∀ (A : Finset ℚ), (∀ v ∈ A, v ∈ kmEventTimes data) →
      (∀ v w, v ∈ kmEventTimes data → w ∈ A → v ≤ w → v ∈ A) →
      (A.prod (fun u => 1 - (kmDeaths data u : ℚ) / (kmAtRisk data u : ℚ)))
        = ((data.length : ℚ)
            - ((data.filter (fun x => decide (x.1 ∈ A) && x.2)).length : ℚ))
          / (data.length : ℚ) := by
  have hne : (data.length : ℚ) ≠ 0 := by
    have := List.length_pos.mpr hn
    positivity
  intro A
  induction A using Finset.strongInductionOn with
  | _ A ih =>
    intro hsub hdc
    rcases Finset.eq_empty_or_nonempty A with rfl | hA
    · have hfe : ∀ a ∈ data, (decide (a.1 ∈ (∅ : Finset ℚ)) && a.2) = false := by
        intro a _
        simp
      rw [length_filter_congr_pred data _ _ hfe]
      simp [List.filter_false]
      field_simp
    · set m := A.max' hA with hm_def
      have hmA : m ∈ A := A.max'_mem hA
      have hmE : m ∈ kmEventTimes data := hsub m hmA
      have hm_le_T : m ≤ T := by
        obtain ⟨x, hx, _, hx1⟩ := (mem_kmEventTimes data m).mp hmE
        rw [← hx1]
        exact hT x hx
      set A' := A.erase m with hAerase
      have hA'sub : ∀ v ∈ A', v ∈ kmEventTimes data := fun v hv =>
        hsub v (Finset.mem_of_mem_erase hv)
      have hA'dc : ∀ v w, v ∈ kmEventTimes data → w ∈ A' → v ≤ w → v ∈ A' := by
        intro v w hvE hwA' hvw
        have hwA := Finset.mem_of_mem_erase hwA'
        have hwne := Finset.ne_of_mem_erase hwA'
        have hwlt : w < m := lt_of_le_of_ne (A.le_max' w hwA) hwne
        have hvA : v ∈ A := hdc v w hvE hwA hvw
        exact Finset.mem_erase.mpr ⟨ne_of_lt (lt_of_le_of_lt hvw hwlt), hvA⟩
      have ihA' := ih A' (Finset.erase_ssubset hmA) hA'sub hA'dc
      have hmemA_iff : ∀ v, v ∈ A ↔ v = m ∨ v ∈ A' := by
        intro v
        rw [hAerase]
        conv_lhs => rw [← Finset.insert_erase hmA]
        simp [Finset.mem_insert]
      -- events with time in A = events with time in A' plus deaths at m
      have hsplit : ((data.filter (fun x => decide (x.1 ∈ A) && x.2)).length : ℕ)
          = (data.filter (fun x => decide (x.1 ∈ A') && x.2)).length
            + kmDeaths data m := by
        have hcongr : ∀ x ∈ data, (decide (x.1 ∈ A) && x.2)
            = ((decide (x.1 ∈ A') && x.2) || (decide (x.1 = m) && x.2)) := by
          intro x _
          cases hx2 : x.2
          · simp
          · have hiff : x.1 ∈ A ↔ (x.1 = m ∨ x.1 ∈ A') := hmemA_iff x.1
            by_cases hxm : x.1 = m <;> by_cases hxA : x.1 ∈ A' <;>
              simp [hxm, hxA, hiff, hx2, hmA]
        have hdisj : ∀ a ∈ data,
            ¬((decide (a.1 ∈ A') && a.2) = true ∧ (decide (a.1 = m) && a.2) = true) := by
          rintro a _ ⟨h1, h2⟩
          have ha1 : a.1 ∈ A' := of_decide_eq_true ((Bool.and_eq_true _ _).mp h1).1
          have ha2 : a.1 = m := of_decide_eq_true ((Bool.and_eq_true _ _).mp h2).1
          rw [ha2] at ha1
          exact Finset.not_mem_erase m A ha1
        rw [length_filter_congr_pred data _ _ hcongr,
          length_filter_disjoint_or data _ _ hdisj]
        rfl
      -- at-risk at m = n minus events with time in A'
      have hrm : kmAtRisk data m
          + (data.filter (fun x => decide (x.1 ∈ A') && x.2)).length
          = data.length := by
        have h1 := kmAtRisk_closed data T hc m hm_le_T
        have hcongr : ∀ x ∈ data, (decide (x.1 < m) && x.2)
            = (decide (x.1 ∈ A') && x.2) := by
          intro x hx
          cases hx2 : x.2
          · simp
          · simp only [Bool.and_true]
            apply decide_eq_decide.mpr
            constructor
            · intro hlt
              have hxE : x.1 ∈ kmEventTimes data :=
                (mem_kmEventTimes data x.1).mpr ⟨x, hx, hx2, rfl⟩
              have hxA : x.1 ∈ A := hdc x.1 m hxE hmA (le_of_lt hlt)
              exact Finset.mem_erase.mpr ⟨ne_of_lt hlt, hxA⟩
            · intro hxA'
              have hxA := Finset.mem_of_mem_erase hxA'
              have hxne := Finset.ne_of_mem_erase hxA'
              exact lt_of_le_of_ne (A.le_max' x.1 hxA) hxne
        rw [← length_filter_congr_pred data _ _ hcongr]
        exact h1
      have hd_pos : 1 ≤ kmDeaths data m := kmDeaths_pos data m hmE
      have hdr : kmDeaths data m ≤ kmAtRisk data m := kmDeaths_le_atRisk data m
      have hr_pos : 0 < kmAtRisk data m := by omega
      rw [← Finset.prod_erase_mul A _ hmA, ← hAerase, ihA', hsplit]
      have hrmQ : (kmAtRisk data m : ℚ)
          = (data.length : ℚ)
            - ((data.filter (fun x => decide (x.1 ∈ A') && x.2)).length : ℚ) := by
        have := hrm
        push_cast [← this]
        ring
      have hrne : (kmAtRisk data m : ℚ) ≠ 0 := by positivity
      rw [← hrmQ]
      push_cast
      field_simp
      rw [hrmQ]
      ring

/-- Closed form of the Kaplan–Meier estimate for a sample whose
censoring all happens at the horizon `T` (the shape produced by the
scan): the survival estimate at `u` is the fraction of subjects without
an observed event by time `u`. -/
theorem kmSurvival_closed (data : List (ℚ × Bool)) (T : ℚ)
    (hT : ∀ x ∈ data, x.1 ≤ T) (hc : ∀ x ∈ data, x.2 = false → x.1 = T)
    (hn : data ≠ []) (u : ℚ) :
    kmSurvival data u
      = ((data.length : ℚ) - (cumEvents data u : ℚ)) / (data.length : ℚ) := by
  unfold kmSurvival
  have hnodup : ((kmEventTimes data).filter (fun v => decide (v ≤ u))).Nodup := by
    apply List.Nodup.filter
    exact List.nodup_dedup _
  rw [← List.prod_toFinset _ hnodup]
  have hsub : ∀ v ∈ ((kmEventTimes data).filter (fun v => decide (v ≤ u))).toFinset,
      v ∈ kmEventTimes data := by
    intro v hv
    exact (List.mem_filter.mp (List.mem_toFinset.mp hv)).1
  have hdc : ∀ v w, v ∈ kmEventTimes data →
      w ∈ ((kmEventTimes data).filter (fun v => decide (v ≤ u))).toFinset →
      v ≤ w → v ∈ ((kmEventTimes data).filter (fun v => decide (v ≤ u))).toFinset := by
    intro v w hvE hw hvw
    have hw' := List.mem_filter.mp (List.mem_toFinset.mp hw)
    have hwu : w ≤ u := of_decide_eq_true hw'.2
    exact List.mem_toFinset.mpr
      (List.mem_filter.mpr ⟨hvE, by simpa using le_trans hvw hwu⟩)
  rw [kmProd_closed data T hT hc hn _ hsub hdc]
  have hcount : (data.filter (fun x =>
      decide (x.1 ∈ ((kmEventTimes data).filter (fun v => decide (v ≤ u))).toFinset)
        && x.2)).length = cumEvents data u := by
    unfold cumEvents
    apply length_filter_congr_pred
    intro x hx
    cases hx2 : x.2
    · simp
    · have hiff : x.1 ∈ ((kmEventTimes data).filter
          (fun v => decide (v ≤ u))).toFinset ↔ x.1 ≤ u := by
        rw [List.mem_toFinset, List.mem_filter]
        constructor
        · intro h
          exact of_decide_eq_true h.2
        · intro h
          exact ⟨(mem_kmEventTimes data x.1).mpr ⟨x, hx, hx2, rfl⟩, by simpa using h⟩
      simp only [hx2, Bool.and_true]
      exact decide_eq_decide.mpr hiff
  rw [hcount]

/-- Monotonicity of the Kaplan–Meier median: if a second sample of the
same size (all censoring at the same horizon) has pointwise no more
cumulative events at every time, its median survival time is no
smaller. -/
theorem median_survival_time_mono (data1 data2 : List (ℚ × Bool)) (T : ℚ)
    (h1T : ∀ x ∈ data1, x.1 ≤ T) (h1c : ∀ x ∈ data1, x.2 = false → x.1 = T)
    (h2T : ∀ x ∈ data2, x.1 ≤ T) (h2c : ∀ x ∈ data2, x.2 = false → x.1 = T)
    (hlen : data1.length = data2.length) (hn : data1 ≠ [])
    (hcum : ∀ u, cumEvents data2 u ≤ cumEvents data1 u) :
    median_survival_time data1 ≤ median_survival_time data2 := by
  by_cases h2 : median_survival_time data2 = ⊤
  · rw [h2]
    exact le_top
  obtain ⟨u2, hu2⟩ := WithTop.ne_top_iff_exists.mp h2
  have hu2mem : u2 ∈ (kmEventTimes data2).filter
      (fun u => decide (kmSurvival data2 u ≤ 1/2)) := by
    apply List.minimum_mem
    exact hu2.symm
  have hS2 : kmSurvival data2 u2 ≤ 1/2 :=
    of_decide_eq_true (List.mem_filter.mp hu2mem).2
  have hn2 : data2 ≠ [] := by
    intro h
    rw [h] at hlen
    simp only [List.length_nil] at hlen
    exact hn (List.length_eq_zero.mp hlen)
  have hnQ : (0 : ℚ) < (data1.length : ℚ) := by
    have := List.length_pos.mpr hn
    positivity
  have hclosed1 := kmSurvival_closed data1 T h1T h1c hn u2
  have hclosed2 := kmSurvival_closed data2 T h2T h2c hn2 u2
  rw [hclosed2, ← hlen] at hS2
  have hS1 : kmSurvival data1 u2 ≤ 1/2 := by
    rw [hclosed1]
    refine le_trans ((div_le_div_right hnQ).mpr ?_) hS2
    have hc' : (cumEvents data2 u2 : ℚ) ≤ (cumEvents data1 u2 : ℚ) := by
      exact_mod_cast hcum u2
    linarith
  have hcum1pos : 0 < cumEvents data1 u2 := by
    by_contra h0
    have hc0 : cumEvents data1 u2 = 0 := by omega
    rw [hclosed1, hc0] at hS1
    rw [Nat.cast_zero, sub_zero, div_self (ne_of_gt hnQ)] at hS1
    linarith
  have hne_filter : data1.filter (fun x => decide (x.1 ≤ u2) && x.2) ≠ [] := by
    intro h
    unfold cumEvents at hcum1pos
    rw [h] at hcum1pos
    simp at hcum1pos
  obtain ⟨x, hx⟩ := List.exists_mem_of_ne_nil _ hne_filter
  have hxd := List.mem_filter.mp hx
  have hx1 : x.1 ≤ u2 := of_decide_eq_true ((Bool.and_eq_true _ _).mp hxd.2).1
  have hx2 : x.2 = true := ((Bool.and_eq_true _ _).mp hxd.2).2
  have hxE : x.1 ∈ kmEventTimes data1 :=
    (mem_kmEventTimes data1 x.1).mpr ⟨x, hxd.1, hx2, rfl⟩
  have hCne : (kmEventTimes data1).filter (fun v => decide (v ≤ u2)) ≠ [] :=
    List.ne_nil_of_mem (List.mem_filter.mpr ⟨hxE, by simpa using hx1⟩)
  have hCmax : ((kmEventTimes data1).filter (fun v => decide (v ≤ u2))).maximum ≠ ⊥ := by
    simpa [List.maximum_eq_bot] using hCne
  obtain ⟨m, hm⟩ := WithBot.ne_bot_iff_exists.mp hCmax
  have hmC : m ∈ (kmEventTimes data1).filter (fun v => decide (v ≤ u2)) :=
    List.maximum_mem hm.symm
  have hmdec := List.mem_filter.mp hmC
  have hmE1 : m ∈ kmEventTimes data1 := hmdec.1
  have hmu2 : m ≤ u2 := of_decide_eq_true hmdec.2
  have hcum_eq : cumEvents data1 m = cumEvents data1 u2 := by
    apply le_antisymm
    · apply length_filter_le_of_imp
      intro a _ ha
      have h1 : a.1 ≤ m := of_decide_eq_true ((Bool.and_eq_true _ _).mp ha).1
      have h2 : a.2 = true := ((Bool.and_eq_true _ _).mp ha).2
      simp [le_trans h1 hmu2, h2]
    · apply length_filter_le_of_imp
      intro a hamem ha
      have h1 : a.1 ≤ u2 := of_decide_eq_true ((Bool.and_eq_true _ _).mp ha).1
      have h2 : a.2 = true := ((Bool.and_eq_true _ _).mp ha).2
      have haE : a.1 ∈ kmEventTimes data1 :=
        (mem_kmEventTimes data1 a.1).mpr ⟨a, hamem, h2, rfl⟩
      have haC : a.1 ∈ (kmEventTimes data1).filter (fun v => decide (v ≤ u2)) :=
        List.mem_filter.mpr ⟨haE, by simpa using h1⟩
      have hle : (a.1 : WithBot ℚ) ≤
          ((kmEventTimes data1).filter (fun v => decide (v ≤ u2))).maximum :=
        List.le_maximum_of_mem' haC
      rw [← hm] at hle
      have ham : a.1 ≤ m := WithBot.coe_le_coe.mp hle
      simp [ham, h2]
  have hS1m : kmSurvival data1 m ≤ 1/2 := by
    rw [kmSurvival_closed data1 T h1T h1c hn m, hcum_eq, ← hclosed1]
    exact hS1
  have hm_cand : m ∈ (kmEventTimes data1).filter
      (fun u => decide (kmSurvival data1 u ≤ 1/2)) :=
    List.mem_filter.mpr ⟨hmE1, by simpa using hS1m⟩
  have h1le : median_survival_time data1 ≤ (m : WithTop ℚ) := by
    unfold median_survival_time
    exact List.minimum_le_of_mem' hm_cand
  refine le_trans h1le ?_
  rw [← hu2]
  exact_mod_cast hmu2

/-- A masked pixel's event time never exceeds the horizon, and a masked
pixel without an observed event sits exactly at the horizon. -/
theorem survScan_masked_bounds (ndvi_stack : List Grid)
    (recovery_threshold : Grid) (mask : Pix → Bool) (p : Pix)
    (hp : mask p = true) :
    (survScan ndvi_stack recovery_threshold mask).t p ≤ (ndvi_stack.length : ℚ)
    ∧ ((survScan ndvi_stack recovery_threshold mask).e p = false →
      (survScan ndvi_stack recovery_threshold mask).t p = (ndvi_stack.length : ℚ)) := by
  have h := (survScan_pixel ndvi_stack recovery_threshold mask p).2 hp
  cases hfc : firstCrossIdx (recovery_threshold p)
      (ndvi_stack.map (fun g => g p)) with
  | none =>
    obtain ⟨ht, he⟩ := h.2 hfc
    exact ⟨le_of_eq ht, fun _ => ht⟩
  | some j =>
    obtain ⟨ht, he⟩ := h.1 j hfc
    have hj := firstCrossIdx_lt_length _ _ j hfc
    rw [List.length_map] at hj
    constructor
    · rw [ht]
      exact_mod_cast by omega
    · intro hef
      rw [he] at hef
      exact absurd hef (by simp)

/-- Raising the threshold at a masked pixel can only delay its observed
event: an event under the higher threshold implies an event no later
under the lower one. -/
theorem survScan_event_mono (ndvi_stack : List Grid) (thr1 thr2 : Grid)
    (mask : Pix → Bool) (p : Pix) (hp : mask p = true)
    (hth : thr1 p ≤ thr2 p) :
    (survScan ndvi_stack thr2 mask).e p = true →
      (survScan ndvi_stack thr1 mask).e p = true
      ∧ (survScan ndvi_stack thr1 mask).t p ≤ (survScan ndvi_stack thr2 mask).t p := by
  intro he2
  have h2 := (survScan_pixel ndvi_stack thr2 mask p).2 hp
  cases hfc2 : firstCrossIdx (thr2 p) (ndvi_stack.map (fun g => g p)) with
  | none =>
    have := (h2.2 hfc2).2
    rw [this] at he2
    exact absurd he2 (by simp)
  | some j =>
    obtain ⟨i, hij, hfc1⟩ := firstCrossIdx_mono (thr1 p) (thr2 p) hth _ j hfc2
    have h1 := ((survScan_pixel ndvi_stack thr1 mask p).2 hp).1 i hfc1
    have h2' := h2.1 j hfc2
    refine ⟨h1.2, ?_⟩
    rw [h1.1, h2'.1]
    exact_mod_cast by omega

/-- The cumulative-events curve over a pixel list is pointwise smaller
for the delayed sample. -/
theorem cumEvents_map_le (P : List Pix) (f1 f2 : Pix → ℚ × Bool)
    (h : ∀ p ∈ P, (f2 p).2 = true → ((f1 p).2 = true ∧ (f1 p).1 ≤ (f2 p).1))
    (u : ℚ) :
    cumEvents (P.map f2) u ≤ cumEvents (P.map f1) u := by
  unfold cumEvents
  induction P with
  | nil => exact le_refl 0
  | cons p rest ih =>
    have ih' := ih (fun q hq => h q (by simp [hq]))
    simp only [List.map_cons, List.filter_cons]
    by_cases h2 : (decide ((f2 p).1 ≤ u) && (f2 p).2) = true
    · have h2' := (Bool.and_eq_true _ _).mp h2
      have he2 : (f2 p).2 = true := h2'.2
      have ht2 : (f2 p).1 ≤ u := of_decide_eq_true h2'.1
      obtain ⟨he1, ht1⟩ := h p (by simp) he2
      have h1 : (decide ((f1 p).1 ≤ u) && (f1 p).2) = true := by
        simp [he1, le_trans ht1 ht2]
      rw [if_pos h2, if_pos h1]
      simp only [List.length_cons]
      omega
    · rw [if_neg h2]
      by_cases h1 : (decide ((f1 p).1 ≤ u) && (f1 p).2) = true
      · rw [if_pos h1]
        simp only [List.length_cons]
        omega
      · rw [if_neg h1]
        exact ih'

/-- C9: on a fixed stack and mask, raising the recovery threshold —
equivalently raising the baseline grid, since the threshold is
baseline × 0.9 pixelwise — never decreases the reported
`median_recovery_time`. -/
theorem c9_threshold_monotone (height width : ℕ) (ndvi_stack : List Grid)
    (baseline1 baseline2 : Grid) (hb : ∀ p, baseline1 p ≤ baseline2 p) :
    (run_survival_analysis height width ndvi_stack baseline1).median_recovery_time ≤
      (run_survival_analysis height width ndvi_stack baseline2).median_recovery_time := by
  unfold run_survival_analysis
  dsimp only
  simp only [List.length_map]
  by_cases hL : 0 <
      ((pixels height width).filter (fun p => flood_mask height width p)).length
  · rw [if_pos hL, if_pos hL]
    dsimp only
    rw [List.zip_map', List.zip_map']
    have hLne : (pixels height width).filter (fun p => flood_mask height width p) ≠ [] :=
      List.length_pos.mp hL
    have hmasked : ∀ p ∈ (pixels height width).filter
        (fun p => flood_mask height width p), flood_mask height width p = true :=
      fun p hp => (List.mem_filter.mp hp).2
    apply median_survival_time_mono _ _ (ndvi_stack.length : ℚ)
    · intro x hx
      obtain ⟨p, hp, rfl⟩ := List.mem_map.mp hx
      exact (survScan_masked_bounds ndvi_stack _ _ p (hmasked p hp)).1
    · intro x hx
      obtain ⟨p, hp, rfl⟩ := List.mem_map.mp hx
      exact (survScan_masked_bounds ndvi_stack _ _ p (hmasked p hp)).2
    · intro x hx
      obtain ⟨p, hp, rfl⟩ := List.mem_map.mp hx
      exact (survScan_masked_bounds ndvi_stack _ _ p (hmasked p hp)).1
    · intro x hx
      obtain ⟨p, hp, rfl⟩ := List.mem_map.mp hx
      exact (survScan_masked_bounds ndvi_stack _ _ p (hmasked p hp)).2
    · simp
    · intro h
      rw [List.map_eq_nil] at h
      exact hLne h
    · intro u
      apply cumEvents_map_le
      intro p hp he2
      exact survScan_event_mono ndvi_stack _ _ _ p (hmasked p hp)
        (mul_le_mul_of_nonneg_right (hb p) (by norm_num)) he2
  · rw [if_neg hL, if_neg hL]

/-- Concrete instantiation of the C9 theorem: equal baselines on a
maskless 10 × 10 grid give equal (default) medians, in particular the
inequality holds. -/
theorem c9_threshold_monotone_witness :
    (run_survival_analysis 10 10 [] (fun _ => 0)).median_recovery_time ≤
      (run_survival_analysis 10 10 [] (fun _ => (1 : ℚ))).median_recovery_time :=
  c9_threshold_monotone 10 10 [] (fun _ => 0) (fun _ => (1 : ℚ))
    (fun _ => by norm_num)
